import Mathlib

/-!
Shallow embedding of `wtform/forms.py` (WTForm, a layout-tree form renderer
on top of django newforms) together with theorems about its rendering
behaviour.

The form-field collaborator (django `BoundField`, widgets, validation) is
external to the repository; it is modelled as an opaque record of the
attributes the renderer reads (label, help text, errors, hidden flag,
pre-rendered widget HTML, type names), following the narrow interface the
renderer actually uses.  Rendering raises Python exceptions
(`NoSuchFormField`, `NotImplementedError`, `TypeError` from iterating a
non-iterable layout); these are modelled with `Except`.  The mutable
instance attributes `self.prefix` and `self.top_errors` are threaded
explicitly as a `RenderSt` record.
-/

namespace WTFormRepo

/-- Model of `django.utils.html.escape` (external library): the chained
replacements `&→&amp;`, `<→&lt;`, `>→&gt;`, `"→&quot;`, `\x27→&#39;`.
Because no later replacement target occurs in an earlier replacement's
output, the chain is equivalent to this single character-wise map. -/
def escapeChar (c : Char) : String :=
  if c = '&' then "&amp;"
  else if c = '<' then "&lt;"
  else if c = '>' then "&gt;"
  else if c = '"' then "&quot;"
  else if c = '\x27' then "&#39;"
  else String.singleton c

/-- `django.utils.html.escape`, character-wise (see `escapeChar`). -/
def escape (s : String) : String :=
  String.join (s.data.map escapeChar)

/-- The attributes of a bound form field that `WTForm` reads, per §6 of the
spec: the external field collaborator (django newforms `BoundField` plus its
field instance and widget). `widgetHtml` is `unicode(bf)`. -/
structure Field where
  fieldTypeName : String
  widgetTypeName : String
  required : Bool
  label : String
  label_tag : String → String
  help_text : String
  errors : List String
  is_hidden : Bool
  widgetHtml : String

/-- Python exceptions the renderer can raise:
`NoSuchFormField` (defined in `forms.py`), `NotImplementedError`
(raised by `as_table`/`as_ul`/`as_p`), and the builtin `TypeError`
raised when a `for` loop iterates a non-iterable `Meta.layout`. -/
inductive PyError where
  | noSuchFormField (msg : String)
  | notImplementedError (msg : String)
  | typeError
  deriving Repr, DecidableEq

/-- Layout tree node. In the Python source a node is either a bare string
(field name), or an instance of `Columns`, `Fieldset` or `HTML`; the
`isinstance` dispatch in `render_fields` makes this a closed variant set.
The stored data is what the constructors store on `self`
(`Fieldset.__init__` pre-computes `legend_html`; `Columns.__init__`
pre-computes `css_class`). -/
inductive Node where
  | field (name : String)
  | fieldset (legend_html : String) (children : List Node)
  | columns (cols : List (List Node)) (css_class : String)
  | html (content : String)

/-- `Fieldset.__init__(legend, *fields)`:
`legend_html = legend and (<legend>…</legend>) or ""`. -/
def Fieldset.init (legend : String) (children : List Node) : Node :=
  .fieldset (if legend ≠ "" then "<legend>" ++ legend ++ "</legend>" else "")
    children

/-- The `css_class` computed by `Columns.__init__`:
`kwargs.has_key("css_class") and kwargs["css_class"] or "yui-g"`.
Python `a and b or c` with a truthy test on the string `b`. -/
def columns_css (css_kwarg : Option String) : String :=
  match css_kwarg with
  | some v => if v ≠ "" then v else "yui-g"
  | none => "yui-g"

/-- `Columns.__init__(*columns, **kwargs)`. -/
def Columns.init (cols : List (List Node)) (css_kwarg : Option String) :
    Node :=
  .columns cols (columns_css css_kwarg)

/-- `HTML.__init__(html)`. -/
def HTML.init (content : String) : Node := .html content

/-- `Meta.layout` as seen from Python: either an iterable sequence of layout
nodes, or some non-iterable object (iterating it raises `TypeError`). -/
inductive PyLayout where
  | seq (nodes : List Node)
  | nonIterable

/-- The pass-local mutable instance state: `self.prefix` and
`self.top_errors` (both initialised to `[]` in `__init__` and reset at the
end of `as_div`). -/
structure RenderSt where
  prefix_fragments : List String
  top_errors : List String
  deriving Repr, DecidableEq

/-- A `WTForm` instance: its ordered field mapping `self.fields`
(an ordered name→field mapping in newforms), `self.layout`, and the
mutable pass state. -/
structure WTForm where
  fields : List (String × Field)
  layout : PyLayout
  st : RenderSt

/-- Ordered-mapping lookup, `self.fields[field]` (first binding wins). -/
def lookupField : List (String × Field) → String → Option Field
  | [], _ => none
  | (k, v) :: rest, n => if k = n then some v else lookupField rest n

/-- `WTForm.__init__`: take `Meta.layout` if present, else default the
layout to `self.fields.keys()` (a flat sequence of field-name leaves);
initialise `self.prefix` and `self.top_errors` to empty lists. -/
def wtInit (fields : List (String × Field)) (metaLayout : Option PyLayout) :
    WTForm :=
  { fields := fields
    layout :=
      match metaLayout with
      | some l => l
      | none => .seq ((fields.map Prod.fst).map Node.field)
    st := ⟨[], []⟩ }

/-- The `error_list` helper of `forms.py`. -/
def error_list (errors : List String) : String :=
  "<ul class=\"errors\"><li>" ++ String.intercalate "</li><li>" errors ++
    "</li></ul>"

/-- Python `x or ""` on a string value. -/
def pyOrEmpty (s : String) : String := if s ≠ "" then s else ""

/-- The visible-field branch of `WTForm.render_field`: the escaped error
list (`bf_errors`), the `css_class` from field and widget type names plus
`" Required"`, the escaped label passed through `label_tag(...) or ""`,
the help-text `<span>`, and the final `%`-format expression of the source
(a pure computation on the field's attributes, so it is factored out of
the state-threading function). -/
def visible_fragment (fi : Field) : String :=
  let bf_errors :=
    if fi.errors ≠ [] then error_list (fi.errors.map escape) else ""
  let css_class :=
    let base := fi.fieldTypeName ++ " " ++ fi.widgetTypeName
    if fi.required then base ++ " Required" else base
  let label :=
    if fi.label ≠ "" then pyOrEmpty (fi.label_tag (escape fi.label))
    else ""
  let help_text :=
    if fi.help_text ≠ "" then
      "<span class=\"help_text\">" ++ escape fi.help_text ++ "</span>"
    else ""
  "<div class=\"field " ++ css_class ++ "\">" ++ label ++
    help_text ++ bf_errors ++ "<div class=\"input\">" ++
    fi.widgetHtml ++ "</div></div>\n"

/-- `WTForm.render_field(field)`: resolve the name (raising
`NoSuchFormField` if absent), build the escaped error list, then either
hoist a hidden field into `self.prefix`/`self.top_errors` (returning the
empty string) or render the visible-field markup. -/
def render_field (fields : List (String × Field)) (name : String)
    (st : RenderSt) : Except PyError (String × RenderSt) :=
  match lookupField fields name with
  | none =>
      .error (.noSuchFormField
        ("Could not resolve form field \x27" ++ name ++ "\x27."))
  | some fi =>
      let bf_errors :=
        if fi.errors ≠ [] then error_list (fi.errors.map escape) else ""
      if fi.is_hidden then
        let st1 : RenderSt :=
          { st with prefix_fragments := st.prefix_fragments ++ [fi.widgetHtml] }
        let st2 : RenderSt :=
          if bf_errors ≠ "" then
            { st1 with top_errors := st1.top_errors ++ fi.errors }
          else st1
        .ok ("", st2)
      else
        .ok (visible_fragment fi, st)

mutual

/-- The loop body of `WTForm.render_fields`: the list of per-node fragments
(`output` in the source), in input order, threading the mutable state. -/
def renderList (fields : List (String × Field)) (ns : List Node)
    (st : RenderSt) : Except PyError (List String × RenderSt) :=
  match ns with
  | [] => .ok ([], st)
  | n :: rest => do
      let (s, st1) ← renderNode fields n st
      let (ss, st2) ← renderList fields rest st1
      .ok (s :: ss, st2)

/-- One iteration of the `render_fields` loop: container nodes dispatch to
their own `as_html(form)`, a bare name goes to `render_field`. -/
def renderNode (fields : List (String × Field)) (n : Node) (st : RenderSt) :
    Except PyError (String × RenderSt) :=
  match n with
  | .field name => render_field fields name st
  | .fieldset legend_html children => do
      let (inner, st1) ← renderList fields children st
      .ok ("<fieldset>" ++ legend_html ++ String.intercalate "" inner ++
            "</fieldset>", st1)
  | .columns cols css_class => do
      let (divs, st1) ← renderCols fields cols " first" st
      .ok ("<div class=\"" ++ css_class ++ "\">" ++
            String.intercalate "" divs ++ "</div>", st1)
  | .html content => .ok (content, st)

/-- The column loop of `Columns.as_html`: each column is rendered with
`form.render_fields(fields)` and wrapped in an inner `<div>`; the first
column carries the extra `" first"` marker class. -/
def renderCols (fields : List (String × Field)) (cols : List (List Node))
    (first : String) (st : RenderSt) :
    Except PyError (List String × RenderSt) :=
  match cols with
  | [] => .ok ([], st)
  | c :: rest => do
      let (inner, st1) ← renderList fields c st
      let (os, st2) ← renderCols fields rest "" st1
      .ok (("<div class=\"yui-u" ++ first ++ "\">" ++
             String.intercalate "" inner ++ "</div>") :: os, st2)

end

/-- `WTForm.render_fields(fields, separator="")`: render each element and
join by the separator. -/
def render_fields (fields : List (String × Field)) (ns : List Node)
    (separator : String) (st : RenderSt) :
    Except PyError (String × RenderSt) := do
  let (out, st1) ← renderList fields ns st
  .ok (String.intercalate separator out, st1)

/-- `WTForm.as_div()`: render the layout (iterating a non-iterable layout
raises `TypeError`), then read the hidden-field prefix and top error list
accumulated during the pass, reset both, and return
`prefix + errors + output`. -/
def as_div (f : WTForm) : Except PyError (String × WTForm) :=
  match f.layout with
  | .nonIterable => .error .typeError
  | .seq ns => do
      let (output, st1) ← render_fields f.fields ns "" f.st
      let prefixStr := String.intercalate "" st1.prefix_fragments
      let errors :=
        if st1.top_errors ≠ [] then error_list st1.top_errors else ""
      .ok (prefixStr ++ errors ++ output, { f with st := ⟨[], []⟩ })

/-- `WTForm.as_table()`: raises `NotImplementedError` unconditionally. -/
def as_table (_ : WTForm) : Except PyError String :=
  .error (.notImplementedError "WTForm does not support <table> output.")

/-- `WTForm.as_ul()`: raises `NotImplementedError` unconditionally. -/
def as_ul (_ : WTForm) : Except PyError String :=
  .error (.notImplementedError "WTForm does not support <ul> output.")

/-- `WTForm.as_p()`: raises `NotImplementedError` unconditionally. -/
def as_p (_ : WTForm) : Except PyError String :=
  .error (.notImplementedError "WTForm does not support <p> output.")

/-! ### The render pass with the residual instance state made explicit

In Python, an exception raised inside `render_fields` propagates out of
`as_div`, but the mutations already performed on `self.prefix` and
`self.top_errors` persist on the form instance, because the resets at the
end of `as_div` are unreachable on that path.  `renderList`/`as_div`
above return `Except` and so cannot express the state a raising call
leaves behind.  The `...E` variants below are the same renderer with that
state kept alongside the result: on a raise they return the instance
state at the moment control leaves the walk.  `renderList_eq_as_divE`
below proves the two presentations agree wherever both are defined
(identical results; the old one merely discards the post-raise state). -/

mutual

/-- `renderList`, also returning the pass state when the walk raises. -/
def renderListE (fields : List (String × Field)) (ns : List Node)
    (st : RenderSt) : Except PyError (List String) × RenderSt :=
  match ns with
  | [] => (.ok [], st)
  | n :: rest =>
      match renderNodeE fields n st with
      | (.error e, st1) => (.error e, st1)
      | (.ok s, st1) =>
          match renderListE fields rest st1 with
          | (.error e, st2) => (.error e, st2)
          | (.ok ss, st2) => (.ok (s :: ss), st2)

/-- `renderNode`, also returning the pass state when the node raises.
`render_field` raises only on the failed lookup, before any mutation, so
its error case returns the incoming state unchanged. -/
def renderNodeE (fields : List (String × Field)) (n : Node)
    (st : RenderSt) : Except PyError String × RenderSt :=
  match n with
  | .field name =>
      match render_field fields name st with
      | .ok (s, st1) => (.ok s, st1)
      | .error e => (.error e, st)
  | .fieldset legend_html children =>
      match renderListE fields children st with
      | (.error e, st1) => (.error e, st1)
      | (.ok inner, st1) =>
          (.ok ("<fieldset>" ++ legend_html ++
            String.intercalate "" inner ++ "</fieldset>"), st1)
  | .columns cols css_class =>
      match renderColsE fields cols " first" st with
      | (.error e, st1) => (.error e, st1)
      | (.ok divs, st1) =>
          (.ok ("<div class=\"" ++ css_class ++ "\">" ++
            String.intercalate "" divs ++ "</div>"), st1)
  | .html content => (.ok content, st)

/-- The `Columns.as_html` loop, also returning the pass state on a raise. -/
def renderColsE (fields : List (String × Field)) (cols : List (List Node))
    (first : String) (st : RenderSt) :
    Except PyError (List String) × RenderSt :=
  match cols with
  | [] => (.ok [], st)
  | c :: rest =>
      match renderListE fields c st with
      | (.error e, st1) => (.error e, st1)
      | (.ok inner, st1) =>
          match renderColsE fields rest "" st1 with
          | (.error e, st2) => (.error e, st2)
          | (.ok os, st2) =>
              (.ok (("<div class=\"yui-u" ++ first ++ "\">" ++
                String.intercalate "" inner ++ "</div>") :: os), st2)

end

/-- `WTForm.as_div()` with the instance state returned on every path: on
success the state is reset (forms.py:277-278); on a raise those resets
are unreachable, so the instance keeps the state accumulated by the walk
up to the exception.  (`TypeError` from a non-iterable layout is raised
before any mutation.) -/
def as_divE (f : WTForm) : Except PyError String × WTForm :=
  match f.layout with
  | .nonIterable => (.error .typeError, f)
  | .seq ns =>
      match renderListE f.fields ns f.st with
      | (.error e, st1) => (.error e, { f with st := st1 })
      | (.ok frs, st1) =>
          (.ok (String.intercalate "" st1.prefix_fragments ++
            (if st1.top_errors ≠ [] then error_list st1.top_errors
             else "") ++
            String.intercalate "" frs), { f with st := ⟨[], []⟩ })

/-! ### Observation functions used to state properties of the renderer -/

/-- Number of occurrences of `pat` as a contiguous sublist of `l`
(counting one candidate occurrence at each start position). -/
def occCount (l pat : List Char) : Nat :=
  match l with
  | [] => 0
  | _ :: rest =>
      (if pat.isPrefixOf l then 1 else 0) + occCount rest pat

mutual

/-- Field-name leaves of a layout node list, left-to-right, depth-first. -/
def layoutNames : List Node → List String
  | [] => []
  | n :: rest => nodeNames n ++ layoutNames rest

/-- Field-name leaves of a single layout node, depth-first. -/
def nodeNames : Node → List String
  | .field name => [name]
  | .fieldset _ children => layoutNames children
  | .columns cols _ => colsNames cols
  | .html _ => []

/-- Field-name leaves of a column list, left-to-right, depth-first. -/
def colsNames : List (List Node) → List String
  | [] => []
  | c :: rest => layoutNames c ++ colsNames rest

end

/-- The string a single field-name leaf contributes inline to the body:
the visible-field markup, or the empty string for a hidden field (an
unresolved name contributes nothing because the render raises). -/
def field_frag (fields : List (String × Field)) (n : String) : String :=
  match lookupField fields n with
  | some fi => if fi.is_hidden then "" else visible_fragment fi
  | none => ""

/-- The widget-HTML fragments that a pass over the given field names
appends to `self.prefix` (one per resolvable hidden name, in order). -/
def hidden_widgets (fields : List (String × Field)) :
    List String → List String
  | [] => []
  | n :: rest =>
      (match lookupField fields n with
       | some fi => if fi.is_hidden then [fi.widgetHtml] else []
       | none => []) ++ hidden_widgets fields rest

/-- The raw error messages that a pass over the given field names appends
to `self.top_errors` (the errors of each resolvable hidden name, in
order). -/
def hidden_errors (fields : List (String × Field)) :
    List String → List String
  | [] => []
  | n :: rest =>
      (match lookupField fields n with
       | some fi => if fi.is_hidden then fi.errors else []
       | none => []) ++ hidden_errors fields rest

/-! ### Concrete sample forms used as witnesses and counterexamples -/

/-- A sample visible bound field (CharField with a TextInput widget). -/
def mkVisible (label w : String) : Field :=
  { fieldTypeName := "CharField", widgetTypeName := "TextInput",
    required := true, label := label,
    label_tag := fun s => "<label for=\"id\">" ++ s ++ "</label>",
    help_text := "", errors := [], is_hidden := false, widgetHtml := w }

/-- A sample hidden bound field (CharField with a HiddenInput widget). -/
def mkHidden (w : String) (errs : List String) : Field :=
  { fieldTypeName := "CharField", widgetTypeName := "HiddenInput",
    required := false, label := "", label_tag := fun s => s,
    help_text := "", errors := errs, is_hidden := true, widgetHtml := w }

/-- Two declared fields, explicit layout referencing only the first. -/
def c1_form : WTForm :=
  wtInit [("a", mkVisible "A" "WIDGETA"), ("b", mkVisible "B" "WIDGETB")]
    (some (.seq [.field "a"]))

/-- Output of `as_div` on `c1_form`. -/
def c1_out : String :=
  match as_div c1_form with
  | .ok (o, _) => o
  | .error _ => ""

/-- Whether `as_div` on `c1_form` succeeded. -/
def c1_ok : Bool :=
  match as_div c1_form with
  | .ok _ => true
  | .error _ => false

/-- One hidden field carrying an error message with HTML metacharacters. -/
def c2_form : WTForm :=
  wtInit [("h", mkHidden "HW" ["<script>"])] (some (.seq [.field "h"]))

/-- Output of `as_div` on `c2_form`. -/
def c2_out : String :=
  match as_div c2_form with
  | .ok (o, _) => o
  | .error _ => ""

/-- A single visible field, default layout. -/
def c5_form : WTForm := wtInit [("name", mkVisible "Name" "NAMEWIDGET")] none

/-- A hidden field followed by an undeclared name: the render appends the
hidden widget to `self.prefix` and then raises `NoSuchFormField`, so the
end-of-`as_div` resets never run. -/
def c5x_form : WTForm :=
  wtInit [("h", mkHidden "HW" [])]
    (some (.seq [.field "h", .field "missing"]))

/-- The `as_div` output of `c5_form`. -/
def c5_out : String :=
  "<div class=\"field CharField TextInput Required\"><label for=\"id\">Name</label><div class=\"input\">NAMEWIDGET</div></div>\n"

/-- Nested layout referencing an undeclared name at depth two. -/
def c6_ns : List Node :=
  [Fieldset.init "Grp" [.field "a", Columns.init [[.field "bad"]] none]]

/-- Form for `c6_ns`: only `"a"` is declared. -/
def c6_form : WTForm := wtInit [("a", mkVisible "A" "AW")] (some (.seq c6_ns))

/-- Explicit layout listing a hidden field with an error and a visible one. -/
def c8_ns : List Node := [Node.field "h", Node.field "v"]

/-- Form for `c8_ns`. -/
def c8_form : WTForm :=
  wtInit [("h", mkHidden "HWID" ["boom"]), ("v", mkVisible "V" "VWID")]
    (some (.seq c8_ns))

/-- The `as_div` output of `c8_form`. -/
def c8_out : String :=
  "HWID<ul class=\"errors\"><li>boom</li></ul><div class=\"field CharField TextInput Required\"><label for=\"id\">V</label><div class=\"input\">VWID</div></div>\n"

/-- Two raw-HTML nodes used to exercise `render_fields` sequencing. -/
def c9_xs : List Node := [Node.html "X"]

/-- Second node list for the sequencing witness. -/
def c9_ys : List Node := [Node.html "Y"]

/-! ### Basic lemmas -/

theorem ex_bind_ok {α β : Type} (a : α) (f : α → Except PyError β) :
    (Except.ok a : Except PyError α) >>= f = f a := rfl

theorem ex_bind_err {α β : Type} (e : PyError) (f : α → Except PyError β) :
    (Except.error e : Except PyError α) >>= f = Except.error e := rfl

theorem error_list_ne_empty (l : List String) : error_list l ≠ "" := by
  intro h
  have h2 := congrArg String.length h
  rw [error_list, String.length_append, String.length_append] at h2
  have h3 : ("<ul class=\"errors\"><li>" : String).length = 23 := by decide
  have h4 : ("" : String).length = 0 := by decide
  rw [h3, h4] at h2
  omega

theorem render_field_none {fields : List (String × Field)} {name : String}
    (st : RenderSt) (h : lookupField fields name = none) :
    render_field fields name st = .error (.noSuchFormField
      ("Could not resolve form field \x27" ++ name ++ "\x27.")) := by
  rw [render_field, h]

/-- `render_field` on a resolvable name: the inline output is
`field_frag` (independent of the incoming state), and the pass state
gains exactly the hidden widget HTML and the raw hidden errors. -/
theorem render_field_some {fields : List (String × Field)} {name : String}
    {fi : Field} (st : RenderSt) (h : lookupField fields name = some fi) :
    render_field fields name st = .ok (field_frag fields name,
      ⟨st.prefix_fragments ++ (if fi.is_hidden then [fi.widgetHtml] else []),
       st.top_errors ++ (if fi.is_hidden then fi.errors else [])⟩) := by
  rw [render_field, h, field_frag, h]
  by_cases hh : fi.is_hidden
  · by_cases he : fi.errors = []
    · simp [hh, he]
    · have hne : error_list (fi.errors.map escape) ≠ "" :=
        error_list_ne_empty _
      simp [hh, he, hne]
  · simp [hh]

/-- `render_field` on a hidden field: the widget HTML is appended to
`self.prefix`, the raw (unescaped) error messages to `self.top_errors`,
and the call returns the empty string. -/
theorem render_field_hidden {fields : List (String × Field)} {name : String}
    {fi : Field} (st : RenderSt) (h : lookupField fields name = some fi)
    (hh : fi.is_hidden = true) :
    render_field fields name st = .ok ("",
      ⟨st.prefix_fragments ++ [fi.widgetHtml],
       st.top_errors ++ fi.errors⟩) := by
  rw [render_field_some st h]
  rw [field_frag, h]
  by_cases he : fi.errors = []
  · simp [hh, he]
  · simp [hh, he]

/-! ### Unfolding and inversion lemmas for the mutual render functions -/

theorem layoutNames_nil : layoutNames [] = [] := by rw [layoutNames]

theorem layoutNames_cons (n : Node) (rest : List Node) :
    layoutNames (n :: rest) = nodeNames n ++ layoutNames rest := by
  rw [layoutNames]

theorem nodeNames_field (name : String) :
    nodeNames (.field name) = [name] := by rw [nodeNames]

theorem nodeNames_fieldset (lg : String) (children : List Node) :
    nodeNames (.fieldset lg children) = layoutNames children := by
  rw [nodeNames]

theorem nodeNames_columns (cols : List (List Node)) (css : String) :
    nodeNames (.columns cols css) = colsNames cols := by rw [nodeNames]

theorem nodeNames_html (c : String) : nodeNames (.html c) = [] := by
  rw [nodeNames]

theorem colsNames_nil : colsNames [] = [] := by rw [colsNames]

theorem colsNames_cons (c : List Node) (rest : List (List Node)) :
    colsNames (c :: rest) = layoutNames c ++ colsNames rest := by
  rw [colsNames]

theorem hidden_widgets_append (fields : List (String × Field))
    (xs ys : List String) :
    hidden_widgets fields (xs ++ ys) =
      hidden_widgets fields xs ++ hidden_widgets fields ys := by
  induction xs with
  | nil => simp [hidden_widgets]
  | cons n rest ih => simp [hidden_widgets, ih]

theorem hidden_errors_append (fields : List (String × Field))
    (xs ys : List String) :
    hidden_errors fields (xs ++ ys) =
      hidden_errors fields xs ++ hidden_errors fields ys := by
  induction xs with
  | nil => simp [hidden_errors]
  | cons n rest ih => simp [hidden_errors, ih]

theorem renderList_nil (fields : List (String × Field)) (st : RenderSt) :
    renderList fields [] st = .ok ([], st) := by
  rw [renderList]

theorem renderList_cons_ok {fields : List (String × Field)} {n : Node}
    {rest : List Node} {st st1 st2 : RenderSt} {s : String} {ss : List String}
    (h1 : renderNode fields n st = .ok (s, st1))
    (h2 : renderList fields rest st1 = .ok (ss, st2)) :
    renderList fields (n :: rest) st = .ok (s :: ss, st2) := by
  rw [renderList, h1, ex_bind_ok]
  simp only []
  rw [h2, ex_bind_ok]

theorem renderList_cons_err1 {fields : List (String × Field)} {n : Node}
    {rest : List Node} {st : RenderSt} {e : PyError}
    (h1 : renderNode fields n st = .error e) :
    renderList fields (n :: rest) st = .error e := by
  rw [renderList, h1, ex_bind_err]

theorem renderList_cons_err2 {fields : List (String × Field)} {n : Node}
    {rest : List Node} {st st1 : RenderSt} {s : String} {e : PyError}
    (h1 : renderNode fields n st = .ok (s, st1))
    (h2 : renderList fields rest st1 = .error e) :
    renderList fields (n :: rest) st = .error e := by
  rw [renderList, h1, ex_bind_ok]
  simp only []
  rw [h2, ex_bind_err]

theorem renderList_cons_inv {fields : List (String × Field)} {n : Node}
    {rest : List Node} {st st' : RenderSt} {frs : List String}
    (h : renderList fields (n :: rest) st = .ok (frs, st')) :
    ∃ s st1 ss, renderNode fields n st = .ok (s, st1) ∧
      renderList fields rest st1 = .ok (ss, st') ∧ frs = s :: ss := by
  rw [renderList] at h
  cases h1 : renderNode fields n st with
  | error e => rw [h1, ex_bind_err] at h; exact absurd h (by simp)
  | ok p =>
      obtain ⟨s, st1⟩ := p
      rw [h1, ex_bind_ok] at h
      dsimp only at h
      cases h2 : renderList fields rest st1 with
      | error e =>
          rw [h2, ex_bind_err] at h
          exact absurd h (by simp)
      | ok q =>
          obtain ⟨ss, st2⟩ := q
          rw [h2, ex_bind_ok] at h
          dsimp only at h
          have h3 : (s :: ss, st2) = (frs, st') := Except.ok.inj h
          cases h3
          exact ⟨s, st1, ss, rfl, h2, rfl⟩

theorem renderNode_field (fields : List (String × Field)) (name : String)
    (st : RenderSt) :
    renderNode fields (.field name) st = render_field fields name st := by
  rw [renderNode]

theorem renderNode_html (fields : List (String × Field)) (c : String)
    (st : RenderSt) : renderNode fields (.html c) st = .ok (c, st) := by
  rw [renderNode]

theorem renderNode_fieldset_ok {fields : List (String × Field)}
    {lg : String} {children : List Node} {st st1 : RenderSt}
    {inner : List String}
    (h1 : renderList fields children st = .ok (inner, st1)) :
    renderNode fields (.fieldset lg children) st =
      .ok ("<fieldset>" ++ lg ++ String.intercalate "" inner ++
        "</fieldset>", st1) := by
  rw [renderNode, h1, ex_bind_ok]

theorem renderNode_fieldset_err {fields : List (String × Field)}
    {lg : String} {children : List Node} {st : RenderSt} {e : PyError}
    (h1 : renderList fields children st = .error e) :
    renderNode fields (.fieldset lg children) st = .error e := by
  rw [renderNode, h1, ex_bind_err]

theorem renderNode_fieldset_inv {fields : List (String × Field)}
    {lg : String} {children : List Node} {st st' : RenderSt} {s : String}
    (h : renderNode fields (.fieldset lg children) st = .ok (s, st')) :
    ∃ inner, renderList fields children st = .ok (inner, st') ∧
      s = "<fieldset>" ++ lg ++ String.intercalate "" inner ++
        "</fieldset>" := by
  rw [renderNode] at h
  cases h1 : renderList fields children st with
  | error e => rw [h1, ex_bind_err] at h; exact absurd h (by simp)
  | ok p =>
      obtain ⟨inner, st1⟩ := p
      rw [h1, ex_bind_ok] at h
      dsimp only at h
      have h3 := Except.ok.inj h
      have hs : s = "<fieldset>" ++ lg ++ String.intercalate "" inner ++
          "</fieldset>" := (congrArg Prod.fst h3).symm
      have hst : st1 = st' := congrArg Prod.snd h3
      exact ⟨inner, by rw [hst], hs⟩

theorem renderNode_columns_ok {fields : List (String × Field)}
    {cols : List (List Node)} {css : String} {st st1 : RenderSt}
    {divs : List String}
    (h1 : renderCols fields cols " first" st = .ok (divs, st1)) :
    renderNode fields (.columns cols css) st =
      .ok ("<div class=\"" ++ css ++ "\">" ++ String.intercalate "" divs ++
        "</div>", st1) := by
  rw [renderNode, h1, ex_bind_ok]

theorem renderNode_columns_err {fields : List (String × Field)}
    {cols : List (List Node)} {css : String} {st : RenderSt} {e : PyError}
    (h1 : renderCols fields cols " first" st = .error e) :
    renderNode fields (.columns cols css) st = .error e := by
  rw [renderNode, h1, ex_bind_err]

theorem renderNode_columns_inv {fields : List (String × Field)}
    {cols : List (List Node)} {css : String} {st st' : RenderSt} {s : String}
    (h : renderNode fields (.columns cols css) st = .ok (s, st')) :
    ∃ divs, renderCols fields cols " first" st = .ok (divs, st') ∧
      s = "<div class=\"" ++ css ++ "\">" ++ String.intercalate "" divs ++
        "</div>" := by
  rw [renderNode] at h
  cases h1 : renderCols fields cols " first" st with
  | error e => rw [h1, ex_bind_err] at h; exact absurd h (by simp)
  | ok p =>
      obtain ⟨divs, st1⟩ := p
      rw [h1, ex_bind_ok] at h
      dsimp only at h
      have h3 := Except.ok.inj h
      have hs : s = "<div class=\"" ++ css ++ "\">" ++
          String.intercalate "" divs ++ "</div>" :=
        (congrArg Prod.fst h3).symm
      have hst : st1 = st' := congrArg Prod.snd h3
      exact ⟨divs, by rw [hst], hs⟩

theorem renderCols_nil (fields : List (String × Field)) (first : String)
    (st : RenderSt) : renderCols fields [] first st = .ok ([], st) := by
  rw [renderCols]

theorem renderCols_cons_ok {fields : List (String × Field)}
    {c : List Node} {rest : List (List Node)} {first : String}
    {st st1 st2 : RenderSt} {inner os : List String}
    (h1 : renderList fields c st = .ok (inner, st1))
    (h2 : renderCols fields rest "" st1 = .ok (os, st2)) :
    renderCols fields (c :: rest) first st =
      .ok (("<div class=\"yui-u" ++ first ++ "\">" ++
        String.intercalate "" inner ++ "</div>") :: os, st2) := by
  rw [renderCols, h1, ex_bind_ok]
  simp only []
  rw [h2, ex_bind_ok]

theorem renderCols_cons_err1 {fields : List (String × Field)}
    {c : List Node} {rest : List (List Node)} {first : String}
    {st : RenderSt} {e : PyError}
    (h1 : renderList fields c st = .error e) :
    renderCols fields (c :: rest) first st = .error e := by
  rw [renderCols, h1, ex_bind_err]

theorem renderCols_cons_err2 {fields : List (String × Field)}
    {c : List Node} {rest : List (List Node)} {first : String}
    {st st1 : RenderSt} {inner : List String} {e : PyError}
    (h1 : renderList fields c st = .ok (inner, st1))
    (h2 : renderCols fields rest "" st1 = .error e) :
    renderCols fields (c :: rest) first st = .error e := by
  rw [renderCols, h1, ex_bind_ok]
  simp only []
  rw [h2, ex_bind_err]

theorem renderCols_cons_inv {fields : List (String × Field)}
    {c : List Node} {rest : List (List Node)} {first : String}
    {st st' : RenderSt} {os : List String}
    (h : renderCols fields (c :: rest) first st = .ok (os, st')) :
    ∃ inner st1 os', renderList fields c st = .ok (inner, st1) ∧
      renderCols fields rest "" st1 = .ok (os', st') ∧
      os = ("<div class=\"yui-u" ++ first ++ "\">" ++
        String.intercalate "" inner ++ "</div>") :: os' := by
  rw [renderCols] at h
  cases h1 : renderList fields c st with
  | error e => rw [h1, ex_bind_err] at h; exact absurd h (by simp)
  | ok p =>
      obtain ⟨inner, st1⟩ := p
      rw [h1, ex_bind_ok] at h
      dsimp only at h
      cases h2 : renderCols fields rest "" st1 with
      | error e =>
          rw [h2, ex_bind_err] at h
          exact absurd h (by simp)
      | ok q =>
          obtain ⟨os', st2⟩ := q
          rw [h2, ex_bind_ok] at h
          dsimp only at h
          have h3 := Except.ok.inj h
          cases h3
          exact ⟨inner, st1, os', rfl, h2, rfl⟩

theorem intercalate_go_empty (bs : List String) (a : String) :
    String.intercalate.go a "" bs = a ++ String.intercalate "" bs := by
  induction bs generalizing a with
  | nil =>
      rw [String.intercalate]
      rw [String.intercalate.go]
      rw [String.append_empty]
  | cons b bs ih =>
      rw [String.intercalate.go, ih, String.intercalate, ih,
        String.append_empty, String.append_assoc]

theorem intercalate_empty_cons (x : String) (xs : List String) :
    String.intercalate "" (x :: xs) = x ++ String.intercalate "" xs := by
  rw [String.intercalate, intercalate_go_empty]

theorem intercalate_empty_append (xs ys : List String) :
    String.intercalate "" (xs ++ ys) =
      String.intercalate "" xs ++ String.intercalate "" ys := by
  induction xs with
  | nil =>
      rw [List.nil_append, String.intercalate, String.empty_append]
  | cons x xs ih =>
      rw [List.cons_append, intercalate_empty_cons, intercalate_empty_cons,
        ih, String.append_assoc]


/-- State evolution of a render pass: a successful walk appends exactly the
hidden widget HTML to `self.prefix` and the raw hidden-field errors to
`self.top_errors`, in depth-first leaf order. -/
theorem renderList_state (fields : List (String × Field)) :
    ∀ ns st, ∀ frs st', renderList fields ns st = .ok (frs, st') →
      st'.prefix_fragments =
        st.prefix_fragments ++ hidden_widgets fields (layoutNames ns) ∧
      st'.top_errors =
        st.top_errors ++ hidden_errors fields (layoutNames ns) := by
  refine renderList.induct fields
    (fun ns st => ∀ frs st', renderList fields ns st = .ok (frs, st') →
      st'.prefix_fragments =
        st.prefix_fragments ++ hidden_widgets fields (layoutNames ns) ∧
      st'.top_errors =
        st.top_errors ++ hidden_errors fields (layoutNames ns))
    (fun n st => ∀ s st', renderNode fields n st = .ok (s, st') →
      st'.prefix_fragments =
        st.prefix_fragments ++ hidden_widgets fields (nodeNames n) ∧
      st'.top_errors =
        st.top_errors ++ hidden_errors fields (nodeNames n))
    (fun cols first st => ∀ os st',
      renderCols fields cols first st = .ok (os, st') →
      st'.prefix_fragments =
        st.prefix_fragments ++ hidden_widgets fields (colsNames cols) ∧
      st'.top_errors =
        st.top_errors ++ hidden_errors fields (colsNames cols))
    ?_ ?_ ?_ ?_ ?_ ?_ ?_ ?_
  · -- field leaf
    intro st name s st' h
    rw [renderNode_field] at h
    cases hl : lookupField fields name with
    | none => rw [render_field_none st hl] at h; exact absurd h (by simp)
    | some fi =>
        rw [render_field_some st hl] at h
        have h3 := Except.ok.inj h
        have hst : st' = RenderSt.mk
            (st.prefix_fragments ++
              (if fi.is_hidden then [fi.widgetHtml] else []))
            (st.top_errors ++ (if fi.is_hidden then fi.errors else [])) :=
          (congrArg Prod.snd h3).symm
        subst hst
        rw [nodeNames_field]
        constructor
        · simp [hidden_widgets, hl]
        · simp [hidden_errors, hl]
  · -- fieldset
    intro st lg children ih s st' h
    obtain ⟨inner, h1, _⟩ := renderNode_fieldset_inv h
    rw [nodeNames_fieldset]
    exact ih inner st' h1
  · -- columns
    intro st cols css ih s st' h
    obtain ⟨divs, h1, _⟩ := renderNode_columns_inv h
    rw [nodeNames_columns]
    exact ih divs st' h1
  · -- html
    intro st c s st' h
    rw [renderNode_html] at h
    have h3 := Except.ok.inj h
    have hst : st' = st := (congrArg Prod.snd h3).symm
    subst hst
    rw [nodeNames_html]
    simp [hidden_widgets, hidden_errors]
  · -- nil
    intro st frs st' h
    rw [renderList_nil] at h
    have h3 := Except.ok.inj h
    have hst : st' = st := (congrArg Prod.snd h3).symm
    subst hst
    rw [layoutNames_nil]
    simp [hidden_widgets, hidden_errors]
  · -- cons
    intro st n rest ih1 ih2 frs st' h
    obtain ⟨s, st1, ss, h1, h2, _⟩ := renderList_cons_inv h
    obtain ⟨p1, t1⟩ := ih1 s st1 h1
    obtain ⟨p2, t2⟩ := ih2 st1 ss st' h2
    rw [layoutNames_cons, hidden_widgets_append, hidden_errors_append]
    constructor
    · rw [p2, p1, List.append_assoc]
    · rw [t2, t1, List.append_assoc]
  · -- cols nil
    intro first st os st' h
    rw [renderCols_nil] at h
    have h3 := Except.ok.inj h
    have hst : st' = st := (congrArg Prod.snd h3).symm
    subst hst
    rw [colsNames_nil]
    simp [hidden_widgets, hidden_errors]
  · -- cols cons
    intro first st c rest ih1 ih2 os st' h
    obtain ⟨inner, st1, os', h1, h2, _⟩ := renderCols_cons_inv h
    obtain ⟨p1, t1⟩ := ih1 inner st1 h1
    obtain ⟨p2, t2⟩ := ih2 st1 os' st' h2
    rw [colsNames_cons, hidden_widgets_append, hidden_errors_append]
    constructor
    · rw [p2, p1, List.append_assoc]
    · rw [t2, t1, List.append_assoc]


/-- If every leaf name in the node list resolves, the walk succeeds. -/
theorem renderList_ok_of_resolved (fields : List (String × Field)) :
    ∀ ns st, (∀ n ∈ layoutNames ns, (lookupField fields n).isSome) →
      ∃ frs st', renderList fields ns st = .ok (frs, st') := by
  refine renderList.induct fields
    (fun ns st => (∀ n ∈ layoutNames ns, (lookupField fields n).isSome) →
      ∃ frs st', renderList fields ns st = .ok (frs, st'))
    (fun n st => (∀ m ∈ nodeNames n, (lookupField fields m).isSome) →
      ∃ s st', renderNode fields n st = .ok (s, st'))
    (fun cols first st =>
      (∀ m ∈ colsNames cols, (lookupField fields m).isSome) →
      ∃ os st', renderCols fields cols first st = .ok (os, st'))
    ?_ ?_ ?_ ?_ ?_ ?_ ?_ ?_
  · intro st name hres
    have hname : (lookupField fields name).isSome := by
      apply hres; rw [nodeNames_field]; exact List.mem_singleton_self _
    obtain ⟨fi, hl⟩ := Option.isSome_iff_exists.mp hname
    rw [renderNode_field]
    exact ⟨_, _, render_field_some st hl⟩
  · intro st lg children ih hres
    rw [nodeNames_fieldset] at hres
    obtain ⟨inner, st1, h1⟩ := ih hres
    exact ⟨_, _, renderNode_fieldset_ok h1⟩
  · intro st cols css ih hres
    rw [nodeNames_columns] at hres
    obtain ⟨divs, st1, h1⟩ := ih hres
    exact ⟨_, _, renderNode_columns_ok h1⟩
  · intro st c _
    exact ⟨c, st, renderNode_html fields c st⟩
  · intro st _
    exact ⟨[], st, renderList_nil fields st⟩
  · intro st n rest ih1 ih2 hres
    rw [layoutNames_cons] at hres
    obtain ⟨s, st1, h1⟩ := ih1 fun m hm =>
      hres m (List.mem_append_left _ hm)
    obtain ⟨ss, st2, h2⟩ := ih2 st1 fun m hm =>
      hres m (List.mem_append_right _ hm)
    exact ⟨s :: ss, st2, renderList_cons_ok h1 h2⟩
  · intro first st _
    exact ⟨[], st, renderCols_nil fields first st⟩
  · intro first st c rest ih1 ih2 hres
    rw [colsNames_cons] at hres
    obtain ⟨inner, st1, h1⟩ := ih1 fun m hm =>
      hres m (List.mem_append_left _ hm)
    obtain ⟨os', st2, h2⟩ := ih2 st1 fun m hm =>
      hres m (List.mem_append_right _ hm)
    exact ⟨_, st2, renderCols_cons_ok h1 h2⟩

/-- A single resolvable node renders successfully. -/
theorem renderNode_ok_of_resolved (fields : List (String × Field))
    (n : Node) (st : RenderSt)
    (hres : ∀ m ∈ nodeNames n, (lookupField fields m).isSome) :
    ∃ s st', renderNode fields n st = .ok (s, st') := by
  have hres1 : ∀ m ∈ layoutNames [n], (lookupField fields m).isSome := by
    rw [layoutNames_cons, layoutNames_nil, List.append_nil]
    exact hres
  obtain ⟨frs, st', hl⟩ := renderList_ok_of_resolved fields [n] st hres1
  obtain ⟨s, st1, ss, h1, _, _⟩ := renderList_cons_inv hl
  exact ⟨s, st1, h1⟩

/-- If some leaf name in the node list does not resolve, the walk raises
`NoSuchFormField` for an unresolved name of the list. -/
theorem renderList_err_of_unresolved (fields : List (String × Field)) :
    ∀ ns st, (∃ n ∈ layoutNames ns, lookupField fields n = none) →
      ∃ m, lookupField fields m = none ∧ m ∈ layoutNames ns ∧
        renderList fields ns st = .error (.noSuchFormField
          ("Could not resolve form field \x27" ++ m ++ "\x27.")) := by
  refine renderList.induct fields
    (fun ns st => (∃ n ∈ layoutNames ns, lookupField fields n = none) →
      ∃ m, lookupField fields m = none ∧ m ∈ layoutNames ns ∧
        renderList fields ns st = .error (.noSuchFormField
          ("Could not resolve form field \x27" ++ m ++ "\x27.")))
    (fun n st => (∃ m ∈ nodeNames n, lookupField fields m = none) →
      ∃ m, lookupField fields m = none ∧ m ∈ nodeNames n ∧
        renderNode fields n st = .error (.noSuchFormField
          ("Could not resolve form field \x27" ++ m ++ "\x27.")))
    (fun cols first st =>
      (∃ m ∈ colsNames cols, lookupField fields m = none) →
      ∃ m, lookupField fields m = none ∧ m ∈ colsNames cols ∧
        renderCols fields cols first st = .error (.noSuchFormField
          ("Could not resolve form field \x27" ++ m ++ "\x27.")))
    ?_ ?_ ?_ ?_ ?_ ?_ ?_ ?_
  · intro st name hex
    obtain ⟨m, hm, hnone⟩ := hex
    rw [nodeNames_field, List.mem_singleton] at hm
    subst hm
    refine ⟨m, hnone, ?_, ?_⟩
    · rw [nodeNames_field]
      exact List.mem_singleton_self _
    · rw [renderNode_field]
      exact render_field_none st hnone
  · intro st lg children ih hex
    rw [nodeNames_fieldset] at hex
    obtain ⟨m, hnone, hmem, herr⟩ := ih hex
    refine ⟨m, hnone, ?_, renderNode_fieldset_err herr⟩
    rw [nodeNames_fieldset]
    exact hmem
  · intro st cols css ih hex
    rw [nodeNames_columns] at hex
    obtain ⟨m, hnone, hmem, herr⟩ := ih hex
    refine ⟨m, hnone, ?_, renderNode_columns_err herr⟩
    rw [nodeNames_columns]
    exact hmem
  · intro st c hex
    rw [nodeNames_html] at hex
    obtain ⟨m, hm, _⟩ := hex
    exact absurd hm (List.not_mem_nil m)
  · intro st hex
    rw [layoutNames_nil] at hex
    obtain ⟨m, hm, _⟩ := hex
    exact absurd hm (List.not_mem_nil m)
  · intro st n rest ih1 ih2 hex
    by_cases hn : ∃ m ∈ nodeNames n, lookupField fields m = none
    · obtain ⟨m, hnone, hmem, herr⟩ := ih1 hn
      refine ⟨m, hnone, ?_, renderList_cons_err1 herr⟩
      rw [layoutNames_cons]
      exact List.mem_append_left _ hmem
    · have hres : ∀ m ∈ nodeNames n, (lookupField fields m).isSome := by
        intro m hm
        rcases ho : lookupField fields m with _ | fi
        · exact absurd ⟨m, hm, ho⟩ hn
        · rfl
      obtain ⟨s, st1, h1⟩ := renderNode_ok_of_resolved fields n st hres
      obtain ⟨m, hm, hnone⟩ := hex
      rw [layoutNames_cons] at hm
      rcases List.mem_append.mp hm with hc | hc
      · exact absurd ⟨m, hc, hnone⟩ hn
      · obtain ⟨m', hnone', hmem', herr'⟩ := ih2 st1 ⟨m, hc, hnone⟩
        refine ⟨m', hnone', ?_, renderList_cons_err2 h1 herr'⟩
        rw [layoutNames_cons]
        exact List.mem_append_right _ hmem'
  · intro first st hex
    rw [colsNames_nil] at hex
    obtain ⟨m, hm, _⟩ := hex
    exact absurd hm (List.not_mem_nil m)
  · intro first st c rest ih1 ih2 hex
    by_cases hn : ∃ m ∈ layoutNames c, lookupField fields m = none
    · obtain ⟨m, hnone, hmem, herr⟩ := ih1 hn
      refine ⟨m, hnone, ?_, renderCols_cons_err1 herr⟩
      rw [colsNames_cons]
      exact List.mem_append_left _ hmem
    · have hres : ∀ m ∈ layoutNames c, (lookupField fields m).isSome := by
        intro m hm
        rcases ho : lookupField fields m with _ | fi
        · exact absurd ⟨m, hm, ho⟩ hn
        · rfl
      obtain ⟨inner, st1, h1⟩ := renderList_ok_of_resolved fields c st hres
      obtain ⟨m, hm, hnone⟩ := hex
      rw [colsNames_cons] at hm
      rcases List.mem_append.mp hm with hc | hc
      · exact absurd ⟨m, hc, hnone⟩ hn
      · obtain ⟨m', hnone', hmem', herr'⟩ := ih2 st1 ⟨m, hc, hnone⟩
        refine ⟨m', hnone', ?_, renderCols_cons_err2 h1 herr'⟩
        rw [colsNames_cons]
        exact List.mem_append_right _ hmem'


/-- Sequencing: rendering a concatenated node list concatenates the
fragment lists, threading the state left to right. -/
theorem renderList_append {fields : List (String × Field)}
    {xs ys : List Node} {st st1 st2 : RenderSt} {fx fy : List String}
    (h1 : renderList fields xs st = .ok (fx, st1))
    (h2 : renderList fields ys st1 = .ok (fy, st2)) :
    renderList fields (xs ++ ys) st = .ok (fx ++ fy, st2) := by
  induction xs generalizing st fx with
  | nil =>
      rw [renderList_nil] at h1
      injection h1 with h3
      injection h3 with hf hs
      subst hf
      subst hs
      rw [List.nil_append, List.nil_append]
      exact h2
  | cons n rest ih =>
      obtain ⟨s, stm, ss, hn, hr, hf⟩ := renderList_cons_inv h1
      subst hf
      rw [List.cons_append, List.cons_append]
      exact renderList_cons_ok hn (ih hr)

/-- Keys of the ordered field mapping always resolve. -/
theorem lookupField_isSome_of_mem {fields : List (String × Field)}
    {k : String} (h : k ∈ fields.map Prod.fst) :
    (lookupField fields k).isSome := by
  induction fields with
  | nil => simp at h
  | cons p rest ih =>
      obtain ⟨k', v⟩ := p
      rw [List.map_cons, List.mem_cons] at h
      rw [lookupField]
      by_cases he : k' = k
      · simp [he]
      · rcases h with h | h
        · exact absurd h.symm he
        · simp [he, ih h]

/-- Rendering a flat list of field-name leaves (the default layout) yields
exactly one fragment per name, in order. -/
theorem renderList_flat (fields : List (String × Field)) (ks : List String)
    (st : RenderSt) (hres : ∀ k ∈ ks, (lookupField fields k).isSome) :
    ∃ st', renderList fields (ks.map Node.field) st =
      .ok (ks.map (field_frag fields), st') := by
  induction ks generalizing st with
  | nil =>
      exact ⟨st, by rw [List.map_nil, List.map_nil, renderList_nil]⟩
  | cons k rest ih =>
      have hk : (lookupField fields k).isSome :=
        hres k (List.mem_cons_self k rest)
      obtain ⟨fi, hl⟩ := Option.isSome_iff_exists.mp hk
      have h1 : renderNode fields (.field k) st = .ok (field_frag fields k,
          ⟨st.prefix_fragments ++
            (if fi.is_hidden then [fi.widgetHtml] else []),
           st.top_errors ++ (if fi.is_hidden then fi.errors else [])⟩) := by
        rw [renderNode_field]
        exact render_field_some st hl
      obtain ⟨st', h2⟩ :=
        ih _ (fun k' hk' => hres k' (List.mem_cons_of_mem _ hk'))
      refine ⟨st', ?_⟩
      rw [List.map_cons, List.map_cons]
      exact renderList_cons_ok h1 h2

theorem render_fields_ok {fields : List (String × Field)} {ns : List Node}
    {sep : String} {st st' : RenderSt} {frs : List String}
    (h : renderList fields ns st = .ok (frs, st')) :
    render_fields fields ns sep st =
      .ok (String.intercalate sep frs, st') := by
  rw [render_fields, h, ex_bind_ok]

theorem render_fields_err {fields : List (String × Field)} {ns : List Node}
    {sep : String} {st : RenderSt} {e : PyError}
    (h : renderList fields ns st = .error e) :
    render_fields fields ns sep st = .error e := by
  rw [render_fields, h, ex_bind_err]

/-- Forward computation of `as_div` from a successful walk. -/
theorem as_div_seq_ok {f : WTForm} {ns : List Node} {st' : RenderSt}
    {frs : List String} (hL : f.layout = .seq ns)
    (h : renderList f.fields ns f.st = .ok (frs, st')) :
    as_div f = .ok (String.intercalate "" st'.prefix_fragments ++
      (if st'.top_errors ≠ [] then error_list st'.top_errors else "") ++
      String.intercalate "" frs, { f with st := ⟨[], []⟩ }) := by
  rw [as_div, hL]
  dsimp only
  rw [render_fields_ok h, ex_bind_ok]

/-- A non-iterable layout makes `as_div` raise `TypeError`. -/
theorem as_div_nonIterable {f : WTForm} (hL : f.layout = .nonIterable) :
    as_div f = .error .typeError := by
  rw [as_div, hL]

/-- Inversion of a successful `as_div` call on an iterable layout. -/
theorem as_div_seq_inv {f : WTForm} {ns : List Node} {out : String}
    {f' : WTForm} (hL : f.layout = .seq ns)
    (h : as_div f = .ok (out, f')) :
    ∃ frs st', renderList f.fields ns f.st = .ok (frs, st') ∧
      out = String.intercalate "" st'.prefix_fragments ++
        (if st'.top_errors ≠ [] then error_list st'.top_errors else "") ++
        String.intercalate "" frs ∧
      f' = { f with st := ⟨[], []⟩ } := by
  rcases hr : renderList f.fields ns f.st with e | p
  · rw [as_div, hL] at h
    dsimp only at h
    rw [render_fields_err hr, ex_bind_err] at h
    exact absurd h (by simp)
  · obtain ⟨frs, st'⟩ := p
    have h2 := as_div_seq_ok hL hr
    rw [h2] at h
    have h3 := Except.ok.inj h
    exact ⟨frs, st', rfl, (congrArg Prod.fst h3).symm,
      (congrArg Prod.snd h3).symm⟩

/-- `as_div` propagates a walk failure unchanged. -/
theorem as_div_seq_err {f : WTForm} {ns : List Node} {e : PyError}
    (hL : f.layout = .seq ns)
    (h : renderList f.fields ns f.st = .error e) :
    as_div f = .error e := by
  rw [as_div, hL]
  dsimp only
  rw [render_fields_err h, ex_bind_err]


theorem renderListE_nil (fields : List (String × Field)) (st : RenderSt) :
    renderListE fields [] st = (.ok [], st) := by
  rw [renderListE]

theorem renderListE_cons_err {fields : List (String × Field)} {n : Node}
    {rest : List Node} {st st1 : RenderSt} {e : PyError}
    (h1 : renderNodeE fields n st = (.error e, st1)) :
    renderListE fields (n :: rest) st = (.error e, st1) := by
  rw [renderListE, h1]

theorem renderListE_cons_err2 {fields : List (String × Field)} {n : Node}
    {rest : List Node} {st st1 st2 : RenderSt} {s : String} {e : PyError}
    (h1 : renderNodeE fields n st = (.ok s, st1))
    (h2 : renderListE fields rest st1 = (.error e, st2)) :
    renderListE fields (n :: rest) st = (.error e, st2) := by
  rw [renderListE, h1]
  dsimp only
  rw [h2]

theorem renderListE_cons_ok {fields : List (String × Field)} {n : Node}
    {rest : List Node} {st st1 st2 : RenderSt} {s : String} {ss : List String}
    (h1 : renderNodeE fields n st = (.ok s, st1))
    (h2 : renderListE fields rest st1 = (.ok ss, st2)) :
    renderListE fields (n :: rest) st = (.ok (s :: ss), st2) := by
  rw [renderListE, h1]
  dsimp only
  rw [h2]

theorem renderNodeE_field_ok {fields : List (String × Field)} {name : String}
    {st st1 : RenderSt} {s : String}
    (h : render_field fields name st = .ok (s, st1)) :
    renderNodeE fields (.field name) st = (.ok s, st1) := by
  rw [renderNodeE, h]

theorem renderNodeE_field_err {fields : List (String × Field)}
    {name : String} {st : RenderSt} {e : PyError}
    (h : render_field fields name st = .error e) :
    renderNodeE fields (.field name) st = (.error e, st) := by
  rw [renderNodeE, h]

theorem renderNodeE_fieldset_err {fields : List (String × Field)}
    {lg : String} {children : List Node} {st st1 : RenderSt} {e : PyError}
    (h : renderListE fields children st = (.error e, st1)) :
    renderNodeE fields (.fieldset lg children) st = (.error e, st1) := by
  rw [renderNodeE, h]

theorem renderNodeE_fieldset_ok {fields : List (String × Field)}
    {lg : String} {children : List Node} {st st1 : RenderSt}
    {inner : List String}
    (h : renderListE fields children st = (.ok inner, st1)) :
    renderNodeE fields (.fieldset lg children) st =
      (.ok ("<fieldset>" ++ lg ++ String.intercalate "" inner ++
        "</fieldset>"), st1) := by
  rw [renderNodeE, h]

theorem renderNodeE_columns_err {fields : List (String × Field)}
    {cols : List (List Node)} {css : String} {st st1 : RenderSt}
    {e : PyError}
    (h : renderColsE fields cols " first" st = (.error e, st1)) :
    renderNodeE fields (.columns cols css) st = (.error e, st1) := by
  rw [renderNodeE, h]

theorem renderNodeE_columns_ok {fields : List (String × Field)}
    {cols : List (List Node)} {css : String} {st st1 : RenderSt}
    {divs : List String}
    (h : renderColsE fields cols " first" st = (.ok divs, st1)) :
    renderNodeE fields (.columns cols css) st =
      (.ok ("<div class=\"" ++ css ++ "\">" ++
        String.intercalate "" divs ++ "</div>"), st1) := by
  rw [renderNodeE, h]

theorem renderNodeE_html (fields : List (String × Field)) (c : String)
    (st : RenderSt) : renderNodeE fields (.html c) st = (.ok c, st) := by
  rw [renderNodeE]

theorem renderColsE_nil (fields : List (String × Field)) (first : String)
    (st : RenderSt) : renderColsE fields [] first st = (.ok [], st) := by
  rw [renderColsE]

theorem renderColsE_cons_err {fields : List (String × Field)}
    {c : List Node} {rest : List (List Node)} {first : String}
    {st st1 : RenderSt} {e : PyError}
    (h : renderListE fields c st = (.error e, st1)) :
    renderColsE fields (c :: rest) first st = (.error e, st1) := by
  rw [renderColsE, h]

theorem renderColsE_cons_err2 {fields : List (String × Field)}
    {c : List Node} {rest : List (List Node)} {first : String}
    {st st1 st2 : RenderSt} {inner : List String} {e : PyError}
    (h1 : renderListE fields c st = (.ok inner, st1))
    (h2 : renderColsE fields rest "" st1 = (.error e, st2)) :
    renderColsE fields (c :: rest) first st = (.error e, st2) := by
  rw [renderColsE, h1]
  dsimp only
  rw [h2]

theorem renderColsE_cons_ok {fields : List (String × Field)}
    {c : List Node} {rest : List (List Node)} {first : String}
    {st st1 st2 : RenderSt} {inner os : List String}
    (h1 : renderListE fields c st = (.ok inner, st1))
    (h2 : renderColsE fields rest "" st1 = (.ok os, st2)) :
    renderColsE fields (c :: rest) first st =
      (.ok (("<div class=\"yui-u" ++ first ++ "\">" ++
        String.intercalate "" inner ++ "</div>") :: os), st2) := by
  rw [renderColsE, h1]
  dsimp only
  rw [h2]

/-- The two presentations of the walk agree: `renderList` is exactly
`renderListE` with the post-raise state discarded. -/
theorem renderList_eq_renderListE (fields : List (String × Field)) :
    ∀ ns st, renderList fields ns st =
      (match renderListE fields ns st with
       | (.ok frs, st') => Except.ok (frs, st')
       | (.error e, _) => Except.error e) := by
  refine renderListE.induct fields
    (fun ns st => renderList fields ns st =
      (match renderListE fields ns st with
       | (.ok frs, st') => Except.ok (frs, st')
       | (.error e, _) => Except.error e))
    (fun n st => renderNode fields n st =
      (match renderNodeE fields n st with
       | (.ok s, st') => Except.ok (s, st')
       | (.error e, _) => Except.error e))
    (fun cols first st => renderCols fields cols first st =
      (match renderColsE fields cols first st with
       | (.ok os, st') => Except.ok (os, st')
       | (.error e, _) => Except.error e))
    ?_ ?_ ?_ ?_ ?_ ?_ ?_ ?_ ?_ ?_ ?_ ?_ ?_ ?_ ?_
  · intro st name s st1 hf
    rw [renderNode_field, hf, renderNodeE_field_ok hf]
  · intro st name e hf
    rw [renderNode_field, hf, renderNodeE_field_err hf]
  · intro st lg children e st2 hE ih
    have hold := ih
    rw [hE] at hold
    rw [renderNode_fieldset_err hold, renderNodeE_fieldset_err hE]
  · intro st lg children ss st2 hE ih
    have hold := ih
    rw [hE] at hold
    rw [renderNode_fieldset_ok hold, renderNodeE_fieldset_ok hE]
  · intro st cols css e st2 hE ih
    have hold := ih
    rw [hE] at hold
    rw [renderNode_columns_err hold, renderNodeE_columns_err hE]
  · intro st cols css ss st2 hE ih
    have hold := ih
    rw [hE] at hold
    rw [renderNode_columns_ok hold, renderNodeE_columns_ok hE]
  · intro st c
    rw [renderNode_html, renderNodeE_html]
  · intro st
    rw [renderList_nil, renderListE_nil]
  · intro st n rest e st1 hE ih
    have hold := ih
    rw [hE] at hold
    rw [renderList_cons_err1 hold, renderListE_cons_err hE]
  · intro st n rest s st1 hE1 e st2 hE2 ih1 ih2
    have hold1 := ih1
    rw [hE1] at hold1
    have hold2 := ih2
    rw [hE2] at hold2
    rw [renderList_cons_err2 hold1 hold2, renderListE_cons_err2 hE1 hE2]
  · intro st n rest s st1 hE1 ss st2 hE2 ih1 ih2
    have hold1 := ih1
    rw [hE1] at hold1
    have hold2 := ih2
    rw [hE2] at hold2
    rw [renderList_cons_ok hold1 hold2, renderListE_cons_ok hE1 hE2]
  · intro first st
    rw [renderCols_nil, renderColsE_nil]
  · intro first st c rest e st2 hE ih
    have hold := ih
    rw [hE] at hold
    rw [renderCols_cons_err1 hold, renderColsE_cons_err hE]
  · intro first st c rest ss st2 hE1 e st3 hE2 ih1 ih2
    have hold1 := ih1
    rw [hE1] at hold1
    have hold2 := ih2
    rw [hE2] at hold2
    rw [renderCols_cons_err2 hold1 hold2, renderColsE_cons_err2 hE1 hE2]
  · intro first st c rest ss st2 hE1 os st3 hE2 ih1 ih2
    have hold1 := ih1
    rw [hE1] at hold1
    have hold2 := ih2
    rw [hE2] at hold2
    rw [renderCols_cons_ok hold1 hold2, renderColsE_cons_ok hE1 hE2]

/-- `as_div` is `as_divE` with the post-raise instance state discarded. -/
theorem as_div_eq_as_divE (f : WTForm) :
    as_div f =
      (match as_divE f with
       | (.ok o, f') => Except.ok (o, f')
       | (.error e, _) => Except.error e) := by
  cases hL : f.layout with
  | nonIterable =>
      rw [as_div_nonIterable hL, as_divE, hL]
  | seq ns =>
      have hagree := renderList_eq_renderListE f.fields ns f.st
      rcases hE : renderListE f.fields ns f.st with ⟨res, st1⟩
      cases res with
      | error e =>
          rw [hE] at hagree
          rw [as_div_seq_err hL hagree, as_divE, hL]
          dsimp only
          rw [hE]
      | ok frs =>
          rw [hE] at hagree
          rw [as_div_seq_ok hL hagree, as_divE, hL]
          dsimp only
          rw [hE]

/-- Claim C1 (counterexample): the code never appends layout-missing
declared fields. In `c1_form`, `"b"` is declared but absent from the
explicit layout; the full render succeeds, yet `"b"`'s widget HTML occurs
zero times in the output (while `"a"`'s occurs once), so not every
declared name appears exactly once. -/
theorem c1_counterexample :
    "b" ∈ c1_form.fields.map Prod.fst ∧ c1_ok = true ∧
    occCount c1_out.data ("WIDGETB".data) = 0 ∧
    occCount c1_out.data ("WIDGETA".data) = 1 :=
  ⟨by decide, by decide, by decide, by decide⟩

/-- Claim C1 (amended): only the effective layout is rendered. With no
explicit `Meta.layout` the default layout is the declared names in
declaration order, so `as_div` renders exactly one fragment per declared
name, in declaration order; a name omitted from an explicit layout is not
appended. -/
theorem c1_theorem (fl : List (String × Field)) :
    ∃ st', renderList fl ((fl.map Prod.fst).map Node.field) ⟨[], []⟩ =
        .ok ((fl.map Prod.fst).map (field_frag fl), st') ∧
      as_div (wtInit fl none) =
        .ok (String.intercalate "" st'.prefix_fragments ++
          (if st'.top_errors ≠ [] then error_list st'.top_errors else "") ++
          String.intercalate "" ((fl.map Prod.fst).map (field_frag fl)),
          { wtInit fl none with st := ⟨[], []⟩ }) := by
  have hres : ∀ k ∈ fl.map Prod.fst, (lookupField fl k).isSome :=
    fun k hk => lookupField_isSome_of_mem hk
  obtain ⟨st', hr⟩ := renderList_flat fl (fl.map Prod.fst) ⟨[], []⟩ hres
  refine ⟨st', hr, ?_⟩
  exact as_div_seq_ok rfl hr

/-- Claim C2 (counterexample): hidden-field errors reach the top-level
error list raw and are rendered unescaped by `as_div`, unlike
visible-field errors which pass through `escape`. The output for a hidden
field with error `<script>` contains the unescaped text and not the
escaped form. -/
theorem c2_counterexample :
    c2_out = "HW" ++ error_list ["<script>"] ∧
    error_list ["<script>"] ≠ error_list [escape "<script>"] ∧
    occCount c2_out.data ("&lt;script&gt;".data) = 0 ∧
    occCount c2_out.data ("<script>".data) = 1 :=
  ⟨by decide, by decide, by decide, by decide⟩

/-- Claim C2 (amended): for every hidden field with errors, `render_field`
extends `self.top_errors` with the raw (never escaped) error messages,
appends the widget HTML to `self.prefix`, and returns the empty string. -/
theorem c2_theorem (fields : List (String × Field)) (name : String)
    (fi : Field) (st : RenderSt) (h : lookupField fields name = some fi)
    (hh : fi.is_hidden = true) :
    render_field fields name st = .ok ("",
      ⟨st.prefix_fragments ++ [fi.widgetHtml],
       st.top_errors ++ fi.errors⟩) :=
  render_field_hidden st h hh

/-- Claim C2 witness at a concrete hidden field with one error. -/
theorem c2_witness :
    render_field [("h", mkHidden "HW" ["<script>"])] "h" ⟨[], []⟩ =
      .ok ("", ⟨["HW"], ["<script>"]⟩) :=
  c2_theorem [("h", mkHidden "HW" ["<script>"])] "h"
    (mkHidden "HW" ["<script>"]) ⟨[], []⟩ rfl rfl

/-- Claim C3 (counterexample): a non-iterable `Meta.layout` is stored
unchecked by the constructor and the render then raises the builtin
`TypeError` from iterating it; the code defines no `InvalidLayoutError`
(its only exception class is `NoSuchFormField`). -/
theorem c3_counterexample :
    (wtInit [] (some PyLayout.nonIterable)).layout = PyLayout.nonIterable ∧
    as_div (wtInit [] (some PyLayout.nonIterable)) =
      Except.error PyError.typeError :=
  ⟨rfl, rfl⟩

/-- Claim C3 (amended): for every field set, constructing a form with a
non-iterable `Meta.layout` succeeds storing the layout unvalidated, and
the subsequent render fails with `TypeError` (not a dedicated layout
error). -/
theorem c3_theorem (fields : List (String × Field)) :
    (wtInit fields (some PyLayout.nonIterable)).layout =
      PyLayout.nonIterable ∧
    as_div (wtInit fields (some PyLayout.nonIterable)) =
      Except.error PyError.typeError :=
  ⟨rfl, as_div_nonIterable rfl⟩

/-- Claim C4 (counterexample): the default `css_class` of a `Columns` node
constructed without the keyword is the literal `"yui-g"`, not
`"primary-grid-style"`, and the emitted outer wrapper uses it. -/
theorem c4_counterexample :
    columns_css none = "yui-g" ∧ "yui-g" ≠ "primary-grid-style" ∧
    Columns.init [] none = Node.columns [] "yui-g" ∧
    renderNode [] (Columns.init [] none) ⟨[], []⟩ =
      .ok ("<div class=\"yui-g\"></div>", ⟨[], []⟩) ∧
    occCount ("<div class=\"yui-g\"></div>").data
      ("primary-grid-style".data) = 0 := by
  refine ⟨rfl, by decide, rfl, ?_, by decide⟩
  have h : renderNode [] (Columns.init [] none) ⟨[], []⟩ =
      .ok ("<div class=\"yui-g\">" ++ String.intercalate "" [] ++ "</div>",
        ⟨[], []⟩) :=
    renderNode_columns_ok (renderCols_nil [] " first" ⟨[], []⟩)
  rw [h]
  have h2 : "<div class=\"yui-g\">" ++ String.intercalate "" [] ++
      "</div>" = "<div class=\"yui-g\"></div>" := by decide
  rw [h2]

/-- Claim C4 (amended): every `Columns` node constructed without an
explicit `css_class` keyword carries the default class `"yui-g"`, and its
rendered outer wrapper div opens with that class. -/
theorem c4_theorem (cols : List (List Node))
    (fields : List (String × Field)) (st st' : RenderSt) (out : String)
    (h : renderNode fields (Columns.init cols none) st = .ok (out, st')) :
    columns_css none = "yui-g" ∧
    Columns.init cols none = Node.columns cols "yui-g" ∧
    ∃ rest, out = "<div class=\"yui-g\">" ++ rest := by
  refine ⟨rfl, rfl, ?_⟩
  obtain ⟨divs, _, hout⟩ := renderNode_columns_inv h
  have hc : columns_css none = "yui-g" := rfl
  rw [hc] at hout
  have hl : "<div class=\"" ++ "yui-g" ++ "\">" =
      "<div class=\"yui-g\">" := by decide
  rw [hl] at hout
  refine ⟨String.intercalate "" divs ++ "</div>", ?_⟩
  rw [hout]
  rw [String.append_assoc "<div class=\"yui-g\">"
    (String.intercalate "" divs) "</div>"]

/-- Claim C4 witness at an empty `Columns` node. -/
theorem c4_witness :
    renderNode [] (Columns.init [] none) ⟨[], []⟩ =
      .ok ("<div class=\"yui-g\">" ++ String.intercalate "" [] ++ "</div>",
        ⟨[], []⟩) ∧
    (columns_css none = "yui-g" ∧
     Columns.init [] none = Node.columns [] "yui-g" ∧
     ∃ rest, "<div class=\"yui-g\">" ++ String.intercalate "" [] ++
       "</div>" = "<div class=\"yui-g\">" ++ rest) :=
  ⟨renderNode_columns_ok (renderCols_nil [] " first" ⟨[], []⟩),
   c4_theorem [] [] ⟨[], []⟩ ⟨[], []⟩ _
     (renderNode_columns_ok (renderCols_nil [] " first" ⟨[], []⟩))⟩


/-- Claim C5 (counterexample): pass state is NOT scoped to a single render
when the render raises. In `c5x_form` the walk appends the hidden widget
`"HW"` to `self.prefix` and then raises `NoSuchFormField` on `"missing"`,
so the resets at the end of `as_div` never run: the instance is left with
`prefix = ["HW"]` (different from the fresh state it started from), and
the next render call starts from that leaked state, appending on top of
it (`["HW", "HW"]`). -/
theorem c5_counterexample :
    c5x_form.st = ⟨[], []⟩ ∧
    (as_divE c5x_form).1 = .error (.noSuchFormField
      "Could not resolve form field \x27missing\x27.") ∧
    (as_divE c5x_form).2.st = ⟨["HW"], []⟩ ∧
    (as_divE c5x_form).2.st ≠ c5x_form.st ∧
    (as_divE ((as_divE c5x_form).2)).2.st = ⟨["HW", "HW"], []⟩ :=
  ⟨rfl, rfl, rfl, by decide, rfl⟩

/-- Claim C5 (amended): pass state is reset only at the end of a
SUCCESSFUL render. On a freshly initialised form, a successful render
returns the instance with empty pass state, equal to the original, so a
second render yields the identical output and state (no leak between
completed renders); a render that raises instead leaves the state
accumulated before the exception on the instance (see the
counterexample). Stated on `as_divE`, the model that keeps the instance
state on every path. -/
theorem c5_theorem (f : WTForm) (o1 : String) (f1 : WTForm)
    (h0 : f.st = ⟨[], []⟩) (h1 : as_divE f = (.ok o1, f1)) :
    f1.st = ⟨[], []⟩ ∧ f1 = f ∧ as_divE f1 = (.ok o1, f1) := by
  have h1c := h1
  cases hL : f.layout with
  | nonIterable =>
      rw [as_divE, hL] at h1
      injection h1 with hfst _
      exact absurd hfst (by simp)
  | seq ns =>
      rw [as_divE, hL] at h1
      dsimp only at h1
      rcases hE : renderListE f.fields ns f.st with ⟨res, st1⟩
      cases res with
      | error e =>
          rw [hE] at h1
          dsimp only at h1
          injection h1 with hfst _
          exact absurd hfst (by simp)
      | ok frs =>
          rw [hE] at h1
          dsimp only at h1
          injection h1 with _ hsnd
          have hf1 : f1 = { f with st := ⟨[], []⟩ } := by
            rw [hL]
            exact hsnd.symm
          have hfe : f1 = f := by
            rw [hf1, ← h0]
          refine ⟨by rw [hf1], hfe, ?_⟩
          rw [hfe]
          rw [hfe] at h1c
          exact h1c

/-- Claim C5 witness: a one-field form rendered successfully twice. -/
theorem c5_witness :
    c5_form.st = ⟨[], []⟩ ∧ as_divE c5_form = (.ok c5_out, c5_form) ∧
    (c5_form.st = ⟨[], []⟩ ∧ c5_form = c5_form ∧
      as_divE c5_form = (.ok c5_out, c5_form)) :=
  ⟨rfl, rfl, c5_theorem c5_form c5_out c5_form rfl rfl⟩

/-- Claim C6: an unresolved field name at any nesting depth makes the
whole render fail with `NoSuchFormField` — `as_div` returns that error
unchanged and produces no output. -/
theorem c6_theorem (f : WTForm) (ns : List Node) (n : String)
    (hL : f.layout = .seq ns) (hn : n ∈ layoutNames ns)
    (hnone : lookupField f.fields n = none) :
    ∃ m, lookupField f.fields m = none ∧ m ∈ layoutNames ns ∧
      as_div f = .error (.noSuchFormField
        ("Could not resolve form field \x27" ++ m ++ "\x27.")) := by
  obtain ⟨m, hm1, hm2, herr⟩ :=
    renderList_err_of_unresolved f.fields ns f.st ⟨n, hn, hnone⟩
  exact ⟨m, hm1, hm2, as_div_seq_err hL herr⟩

/-- Claim C6 witness: the name `"bad"` nested inside a fieldset and a
columns node is undeclared, and the whole render fails. -/
theorem c6_witness :
    c6_form.layout = .seq c6_ns ∧ "bad" ∈ layoutNames c6_ns ∧
    lookupField c6_form.fields "bad" = none ∧
    (∃ m, lookupField c6_form.fields m = none ∧ m ∈ layoutNames c6_ns ∧
      as_div c6_form = .error (.noSuchFormField
        ("Could not resolve form field \x27" ++ m ++ "\x27."))) :=
  ⟨rfl, by decide, rfl, c6_theorem c6_form c6_ns "bad" rfl (by decide) rfl⟩

/-- Claim C7: `as_table`, `as_ul` and `as_p` fail unconditionally with
`NotImplementedError`, for every form; none of them ever returns HTML. -/
theorem c7_theorem (f : WTForm) :
    as_table f = .error (.notImplementedError
      "WTForm does not support <table> output.") ∧
    as_ul f = .error (.notImplementedError
      "WTForm does not support <ul> output.") ∧
    as_p f = .error (.notImplementedError
      "WTForm does not support <p> output.") ∧
    (∀ s : String, as_table f ≠ .ok s ∧ as_ul f ≠ .ok s ∧ as_p f ≠ .ok s) :=
  ⟨rfl, rfl, rfl, fun s =>
    ⟨by simp [as_table], by simp [as_ul], by simp [as_p]⟩⟩

/-- Claim C8: on a successful full render the output decomposes as
`prefix + top-errors + body`, where the prefix is exactly the hidden
widget HTML in depth-first layout order, the top error list is exactly the
raw hidden-field errors, and every hidden leaf contributed the empty
string inline (its errors never render next to it). -/
theorem c8_theorem (f : WTForm) (ns : List Node) (out : String)
    (f' : WTForm) (hL : f.layout = .seq ns) (hst : f.st = ⟨[], []⟩)
    (h : as_div f = .ok (out, f')) :
    ∃ frs st', renderList f.fields ns f.st = .ok (frs, st') ∧
      st'.prefix_fragments = hidden_widgets f.fields (layoutNames ns) ∧
      st'.top_errors = hidden_errors f.fields (layoutNames ns) ∧
      out = String.intercalate ""
          (hidden_widgets f.fields (layoutNames ns)) ++
        (if hidden_errors f.fields (layoutNames ns) ≠ [] then
          error_list (hidden_errors f.fields (layoutNames ns)) else "") ++
        String.intercalate "" frs ∧
      (∀ (m : String) (fi : Field) (st0 : RenderSt), m ∈ layoutNames ns →
        lookupField f.fields m = some fi → fi.is_hidden = true →
        render_field f.fields m st0 = .ok ("",
          ⟨st0.prefix_fragments ++ [fi.widgetHtml],
           st0.top_errors ++ fi.errors⟩)) := by
  obtain ⟨frs, st', hr, hout, _⟩ := as_div_seq_inv hL h
  obtain ⟨hp, ht⟩ := renderList_state f.fields ns f.st frs st' hr
  rw [hst] at hp ht
  simp only [List.nil_append] at hp ht
  rw [hp, ht] at hout
  exact ⟨frs, st', hr, hp, ht, hout,
    fun m fi st0 _ hm hh => render_field_hidden st0 hm hh⟩

/-- Claim C8 witness: one hidden field with an error and one visible
field, rendered with an explicit flat layout. -/
theorem c8_witness :
    c8_form.layout = .seq c8_ns ∧ c8_form.st = ⟨[], []⟩ ∧
    as_div c8_form = .ok (c8_out, c8_form) ∧
    (∃ frs st', renderList c8_form.fields c8_ns c8_form.st =
        .ok (frs, st') ∧
      st'.prefix_fragments =
        hidden_widgets c8_form.fields (layoutNames c8_ns) ∧
      st'.top_errors = hidden_errors c8_form.fields (layoutNames c8_ns) ∧
      c8_out = String.intercalate ""
          (hidden_widgets c8_form.fields (layoutNames c8_ns)) ++
        (if hidden_errors c8_form.fields (layoutNames c8_ns) ≠ [] then
          error_list (hidden_errors c8_form.fields (layoutNames c8_ns))
         else "") ++
        String.intercalate "" frs ∧
      (∀ (m : String) (fi : Field) (st0 : RenderSt),
        m ∈ layoutNames c8_ns →
        lookupField c8_form.fields m = some fi → fi.is_hidden = true →
        render_field c8_form.fields m st0 = .ok ("",
          ⟨st0.prefix_fragments ++ [fi.widgetHtml],
           st0.top_errors ++ fi.errors⟩))) :=
  ⟨rfl, rfl, rfl, c8_theorem c8_form c8_ns c8_out c8_form rfl rfl rfl⟩

/-- Claim C9: `render_fields` joins the per-node fragments with the given
separator preserving input order, and rendering a concatenation of node
lists concatenates their fragment sequences in order (so output order
follows layout order, left-to-right). -/
theorem c9_theorem (fields : List (String × Field)) (xs ys : List Node)
    (sep : String) {st st1 st2 : RenderSt} {fx fy : List String}
    (h1 : renderList fields xs st = .ok (fx, st1))
    (h2 : renderList fields ys st1 = .ok (fy, st2)) :
    render_fields fields xs sep st = .ok (String.intercalate sep fx, st1) ∧
    renderList fields (xs ++ ys) st = .ok (fx ++ fy, st2) ∧
    render_fields fields (xs ++ ys) "" st =
      .ok (String.intercalate "" fx ++ String.intercalate "" fy, st2) := by
  refine ⟨render_fields_ok h1, renderList_append h1 h2, ?_⟩
  rw [← intercalate_empty_append]
  exact render_fields_ok (renderList_append h1 h2)

/-- Claim C9 witness: two raw-HTML nodes joined with separator `"|"` and
with the empty separator. -/
theorem c9_witness :
    renderList [] c9_xs ⟨[], []⟩ = .ok (["X"], ⟨[], []⟩) ∧
    renderList [] c9_ys ⟨[], []⟩ = .ok (["Y"], ⟨[], []⟩) ∧
    (render_fields [] c9_xs "|" ⟨[], []⟩ =
        .ok (String.intercalate "|" ["X"], ⟨[], []⟩) ∧
      renderList [] (c9_xs ++ c9_ys) ⟨[], []⟩ =
        .ok (["X"] ++ ["Y"], ⟨[], []⟩) ∧
      render_fields [] (c9_xs ++ c9_ys) "" ⟨[], []⟩ =
        .ok (String.intercalate "" ["X"] ++ String.intercalate "" ["Y"],
          ⟨[], []⟩)) :=
  ⟨rfl, rfl, c9_theorem [] c9_xs c9_ys "|" rfl rfl⟩

/-- Claim C10: supplying `css_class=""` explicitly still yields the
default class, because the Python `and`/`or` chain tests the value for
truthiness: the constructed node carries `"yui-g"`, never the empty
class, and the rendered outer wrapper opens with it. -/
theorem c10_theorem (cols : List (List Node))
    (fields : List (String × Field)) (st st' : RenderSt) (out : String)
    (h : renderNode fields (Columns.init cols (some "")) st =
      .ok (out, st')) :
    columns_css (some "") = "yui-g" ∧
    Columns.init cols (some "") = Node.columns cols "yui-g" ∧
    ∃ rest, out = "<div class=\"yui-g\">" ++ rest := by
  refine ⟨rfl, rfl, ?_⟩
  obtain ⟨divs, _, hout⟩ := renderNode_columns_inv h
  have hc : columns_css (some "") = "yui-g" := rfl
  rw [hc] at hout
  have hl : "<div class=\"" ++ "yui-g" ++ "\">" =
      "<div class=\"yui-g\">" := by decide
  rw [hl] at hout
  refine ⟨String.intercalate "" divs ++ "</div>", ?_⟩
  rw [hout]
  rw [String.append_assoc "<div class=\"yui-g\">"
    (String.intercalate "" divs) "</div>"]

/-- Claim C10 witness at an empty `Columns` node with `css_class=""`. -/
theorem c10_witness :
    renderNode [] (Columns.init [] (some "")) ⟨[], []⟩ =
      .ok ("<div class=\"yui-g\">" ++ String.intercalate "" [] ++ "</div>",
        ⟨[], []⟩) ∧
    (columns_css (some "") = "yui-g" ∧
     Columns.init [] (some "") = Node.columns [] "yui-g" ∧
     ∃ rest, "<div class=\"yui-g\">" ++ String.intercalate "" [] ++
       "</div>" = "<div class=\"yui-g\">" ++ rest) :=
  ⟨renderNode_columns_ok (renderCols_nil [] " first" ⟨[], []⟩),
   c10_theorem [] [] ⟨[], []⟩ ⟨[], []⟩ _
     (renderNode_columns_ok (renderCols_nil [] " first" ⟨[], []⟩))⟩

end WTFormRepo
